import Mathlib

/-!
Verification of the fastapi-template repository: a shallow embedding of the
configuration loader (`app/core/config.py`), the database bootstrap and the two
session dependencies (`app/db/database.py`, `app/db/deps.py`), the generic CRUD
accessor (`app/crud/base.py`), the pagination dependency (`app/api/deps.py`),
and the HTTP application surface (`main.py`), together with theorems checking
the specification's claims against the embedded code.
-/

namespace Config

/-- Embeds `Settings` of `app/core/config.py`: every field of the Pydantic
settings class.  All fields but `DATABASE_URL` have defaults; `DATABASE_URL`
is a required field with no default. -/
structure Settings where
  PROJECT_NAME : String := "FastAPI Template"
  VERSION : String := "1.0.0"
  DESCRIPTION : String := "A simple FastAPI template"
  DEBUG : Bool := false
  ENVIRONMENT : String := "development"
  PORT : Int := 8000
  DATABASE_URL : String
  ALLOWED_HOSTS : List String := ["*"]
  ALLOW_ORIGINS : List String := ["*"]
  ALLOW_CREDENTIALS : Bool := true
  ALLOW_METHODS : List String := ["*"]
  ALLOW_HEADERS : List String := ["*"]
  API_V1_STR : String := "/api/v1"
  LOG_LEVEL : String := "INFO"
  LOG_FORMAT : String := "%(asctime)s - %(name)s - %(levelname)s - %(message)s"
deriving Repr, DecidableEq

/-- Embeds construction of `Settings()` from the environment.  The argument is
the value of the `DATABASE_URL` environment variable (after merging the `.env`
file), `none` when it is absent.  Pydantic rejects a missing required field
with a validation error, embedded as `none`; any present string value,
including the empty string, is accepted as-is (the field type is plain `str`
with no content validator). -/
def loadSettings (databaseUrl : Option String) : Option Settings :=
  match databaseUrl with
  | none => none
  | some u => some { DATABASE_URL := u }

end Config

namespace DB

open Config

/-- Embeds the SQLAlchemy engine value built in `app/db/database.py`:
a SQLite engine (with `check_same_thread=False` and a static pool) when the
URL starts with "sqlite", otherwise a pooled engine with
`pool_pre_ping=True, pool_size=20, max_overflow=0, pool_recycle=300`. -/
inductive Engine
  | sqlite (url : String) (checkSameThread : Bool) (echo : Bool)
  | pooled (url : String) (poolPrePing : Bool) (poolSize : Nat) (maxOverflow : Nat)
      (poolRecycle : Nat) (echo : Bool)
deriving Repr, DecidableEq

/-- Embeds the module-level `engine` of `app/db/database.py`: `None` when
`settings.DATABASE_URL` is falsy (the empty string), else an engine chosen by
the URL prefix. -/
def mkEngine (s : Settings) : Option Engine :=
  if s.DATABASE_URL = "" then
    none
  else if s.DATABASE_URL.startsWith "sqlite" then
    some (.sqlite s.DATABASE_URL false s.DEBUG)
  else
    some (.pooled s.DATABASE_URL true 20 0 300 s.DEBUG)

/-- Embeds the `sessionmaker(autocommit=False, autoflush=False, bind=engine)`
factory of `app/db/database.py`. -/
structure SessionFactory where
  autocommit : Bool
  autoflush : Bool
  engine : Engine
deriving Repr, DecidableEq

/-- Embeds the module-level `SessionLocal` of `app/db/database.py`: `None`
when `engine` is `None`, else the session factory bound to the engine. -/
def mkSessionLocal (s : Settings) : Option SessionFactory :=
  (mkEngine s).map (fun e => ⟨false, false, e⟩)

/-- A live SQLAlchemy session, as produced by calling the session factory. -/
structure PySession where
  factory : SessionFactory
deriving Repr, DecidableEq

/-- Python-level exceptions relevant to the session dependencies: the
`TypeError` raised by calling `None` (`SessionLocal()` when `SessionLocal` is
`None`), and any application exception raised by the request body. -/
inductive PyErr
  | typeErrorNoneNotCallable
  | appExc (msg : String)
deriving Repr, DecidableEq

/-- Observable session-lifecycle events of a dependency run: the logger
warning emitted when no session factory is configured, `db.rollback()`, and
`db.close()`, in the order they happen. -/
inductive Ev
  | warnNoSession
  | rollback
  | close
deriving Repr, DecidableEq

/-- Embeds `get_db` of `app/db/database.py` run against a request body.
`sl` is the module-level `SessionLocal`; `body` is the request handler using
the yielded session, returning a value or raising.  When `SessionLocal` is
falsy the generator logs a warning and returns without yielding (result
`Except.ok none`: no session, no exception).  Otherwise it creates a session,
runs the body, and closes the session in a `finally` block whether the body
returns or raises; there is no rollback. -/
def database_get_db {α : Type} (sl : Option SessionFactory)
    (body : PySession → Except PyErr α) : Except PyErr (Option α) × List Ev :=
  match sl with
  | none => (Except.ok none, [Ev.warnNoSession])
  | some f =>
    match body ⟨f⟩ with
    | Except.ok a => (Except.ok (some a), [Ev.close])
    | Except.error e => (Except.error e, [Ev.close])

/-- Embeds `get_db` of `app/db/deps.py` run against a request body.  The code
calls `SessionLocal()` unconditionally before its `try` block: when
`SessionLocal` is `None` this raises `TypeError` (calling `None`) with no
warning and no cleanup.  Otherwise the body runs inside
`try/except Exception: rollback; raise / finally: close`, so an exception
triggers a rollback and then the close, and a normal return only the close. -/
def deps_get_db {α : Type} (sl : Option SessionFactory)
    (body : PySession → Except PyErr α) : Except PyErr (Option α) × List Ev :=
  match sl with
  | none => (Except.error PyErr.typeErrorNoneNotCallable, [])
  | some f =>
    match body ⟨f⟩ with
    | Except.ok a => (Except.ok (some a), [Ev.close])
    | Except.error e => (Except.error e, [Ev.rollback, Ev.close])

end DB

open Config DB

/-- C1 counterexample: with `SessionLocal = None`, `app.db.deps.get_db` does
not degrade to a logged no-op — it raises `TypeError` (it calls
`SessionLocal()`, i.e. calls `None`) and logs no warning, contradicting the
claim that both session-dependency generators log a warning and yield no
session instead of raising. -/
theorem deps_get_db_raises_without_session_cex :
    (deps_get_db (α := Int) none (fun _ => Except.ok 0)).1
        = Except.error PyErr.typeErrorNoneNotCallable
    ∧ Ev.warnNoSession ∉ (deps_get_db (α := Int) none (fun _ => Except.ok 0)).2 :=
  ⟨rfl, by decide⟩

/-- C1 (amended): when no database connection string is configured
(`SessionLocal` is `None`), `app.db.database.get_db` logs a warning and yields
no session (a no-op, no exception), while `app.db.deps.get_db` raises a
`TypeError` without logging a warning. -/
theorem get_db_no_session_behavior {α : Type} (body : PySession → Except PyErr α) :
    database_get_db none body = (Except.ok none, [Ev.warnNoSession])
    ∧ deps_get_db none body = (Except.error PyErr.typeErrorNoneNotCallable, []) :=
  ⟨rfl, rfl⟩

/-- C2: constructing `Settings` fails exactly when the `DATABASE_URL`
environment value is absent (Pydantic's required-field validation); any
present value, the empty string included, is accepted, and for the empty
string the module-level `engine` and `SessionLocal` remain `None`, disabling
the database layer, while a non-empty string yields both. -/
theorem settings_missing_database_url (env : Option String) :
    ((loadSettings env).isSome ↔ env.isSome)
    ∧ (∀ st : Settings, loadSettings env = some st → st.DATABASE_URL = "" →
        mkEngine st = none ∧ mkSessionLocal st = none)
    ∧ (∀ st : Settings, loadSettings env = some st → st.DATABASE_URL ≠ "" →
        (mkEngine st).isSome ∧ (mkSessionLocal st).isSome) := by
  refine ⟨?_, ?_, ?_⟩
  · cases env <;> simp [loadSettings]
  · intro st hst hurl
    have he : mkEngine st = none := by simp [mkEngine, hurl]
    exact ⟨he, by simp [mkSessionLocal, he]⟩
  · intro st hst hurl
    have he : (mkEngine st).isSome := by
      by_cases hs : st.DATABASE_URL.startsWith "sqlite" <;>
        simp [mkEngine, hurl, hs]
    rcases Option.isSome_iff_exists.mp he with ⟨e, hee⟩
    exact ⟨he, by simp [mkSessionLocal, hee]⟩

/-- C2 witness: at the concrete environments — absent, empty, and a postgres
URL — construction fails, or succeeds with the database layer disabled,
or succeeds with engine and factory present, respectively. -/
theorem settings_missing_database_url_witness :
    ((loadSettings none).isSome ↔ (none : Option String).isSome)
    ∧ (mkEngine { DATABASE_URL := "" } = none
        ∧ mkSessionLocal { DATABASE_URL := "" } = none)
    ∧ ((mkEngine { DATABASE_URL := "postgresql://db" }).isSome
        ∧ (mkSessionLocal { DATABASE_URL := "postgresql://db" }).isSome) :=
  ⟨(settings_missing_database_url none).1,
   (settings_missing_database_url (some "")).2.1 _ rfl rfl,
   (settings_missing_database_url (some "postgresql://db")).2.2 _ rfl (by decide)⟩

/-- C7 counterexample: a request that acquires a session via
`app.db.database.get_db` and then raises does not get a rollback — the
generator's `try/finally` only closes.  The run below raises an application
exception; the session is closed but `rollback` never happens, contradicting
the claim that in the error case the session is rolled back before the
exception propagates. -/
theorem database_get_db_no_rollback_cex :
    (database_get_db (α := Int)
        (some ⟨false, false, Engine.sqlite "sqlite://" false false⟩)
        (fun _ => Except.error (PyErr.appExc "boom"))).1
      = Except.error (PyErr.appExc "boom")
    ∧ Ev.rollback ∉ (database_get_db (α := Int)
        (some ⟨false, false, Engine.sqlite "sqlite://" false false⟩)
        (fun _ => Except.error (PyErr.appExc "boom"))).2
    ∧ Ev.close ∈ (database_get_db (α := Int)
        (some ⟨false, false, Engine.sqlite "sqlite://" false false⟩)
        (fun _ => Except.error (PyErr.appExc "boom"))).2 :=
  ⟨rfl, by decide, by decide⟩

/-- C7 (amended): every request that acquires a session has the session
closed on completion, on success and on error alike, in both dependency
generators; `app.db.deps.get_db` additionally rolls back before closing when
the body raises, while `app.db.database.get_db` closes without ever rolling
back. -/
theorem get_db_session_cleanup {α : Type} (f : SessionFactory)
    (body : PySession → Except PyErr α) :
    (deps_get_db (some f) body).2
        = (match body ⟨f⟩ with
           | Except.ok _ => [Ev.close]
           | Except.error _ => [Ev.rollback, Ev.close])
    ∧ Ev.close ∈ (deps_get_db (some f) body).2
    ∧ (database_get_db (some f) body).2 = [Ev.close]
    ∧ Ev.rollback ∉ (database_get_db (some f) body).2 := by
  cases hb : body ⟨f⟩ <;>
    simp [deps_get_db, database_get_db, hb]

namespace CRUD

/-- A persisted record of a model inheriting `BaseModel`
(`app/db/models/base.py`): the `id` primary key plus the model's other
columns, embedded as an association list from column name to value. -/
structure Record where
  id : Int
  attrs : List (String × Int)
deriving Repr, DecidableEq

/-- The model class handed to `CRUDBase.__init__`: the set of column
attribute names the class has, used to embed `hasattr(self.model, field)`.
`id` is always present (it comes from `BaseModel`). -/
structure ModelClass where
  fields : List String
deriving Repr, DecidableEq

/-- Embeds `hasattr(self.model, field)`. -/
def ModelClass.hasField (m : ModelClass) (f : String) : Bool :=
  f == "id" || m.fields.contains f

/-- Embeds `getattr(record, field)` / the value of a column on a row:
`none` when the row has no such column. -/
def getAttr (r : Record) (f : String) : Option Int :=
  if f == "id" then some r.id
  else (r.attrs.find? (fun p => p.1 == f)).map (·.2)

/-- Embeds `hasattr(db_obj, field)` on a row. -/
def Record.hasAttr (r : Record) (f : String) : Bool :=
  f == "id" || r.attrs.any (fun p => p.1 == f)

/-- Embeds `setattr(db_obj, field, value)` on a row whose column exists. -/
def setAttr (r : Record) (f : String) (v : Int) : Record :=
  if f == "id" then { r with id := v }
  else { r with attrs := r.attrs.map (fun p => if p.1 == f then (p.1, v) else p) }

/-- A filter value in the `filters` dictionary of `get_multi`: either a
single value (Python non-list), or a list (Python `isinstance(value, list)`). -/
inductive FilterValue
  | single (v : Int)
  | listv (vs : List Int)
deriving Repr, DecidableEq

/-- The condition a row must satisfy for one filter entry, as `get_multi`
builds it: column equality for a single value, SQL `IN` (set membership) for
a list value.  A SQL comparison against a NULL column is not satisfied. -/
def filterCond (r : Record) (f : String) (v : FilterValue) : Bool :=
  match v with
  | .single x =>
    match getAttr r f with
    | some y => y == x
    | none => false
  | .listv xs =>
    match getAttr r f with
    | some y => xs.contains y
    | none => false

/-- Embeds the filter loop of `get_multi`: each entry of the `filters`
dictionary whose field exists on the model narrows the query; entries for
unknown fields are skipped. -/
def applyFilters (m : ModelClass) (filters : List (String × FilterValue))
    (rows : List Record) : List Record :=
  filters.foldl
    (fun q fv =>
      if m.hasField fv.1 then q.filter (fun r => filterCond r fv.1 fv.2) else q)
    rows

/-- SQL ordering on a nullable integer column (NULLs first); the exact NULL
placement is dialect-specific and irrelevant to the claims proved here. -/
def optLe : Option Int → Option Int → Bool
  | none, _ => true
  | some _, none => false
  | some a, some b => a ≤ b

/-- The comparison `get_multi` orders by: the `order_by` column, descending
when `order_desc` is set. -/
def keyLe (col : String) (descFlag : Bool) (a b : Record) : Bool :=
  if descFlag then optLe (getAttr b col) (getAttr a col)
  else optLe (getAttr a col) (getAttr b col)

/-- Insertion of a row into a sorted row list. -/
def insertSorted (le : Record → Record → Bool) (r : Record) :
    List Record → List Record
  | [] => [r]
  | x :: xs => if le r x then r :: x :: xs else x :: insertSorted le r xs

/-- The `ORDER BY` applied by the database: an insertion sort of the rows. -/
def sortRows (le : Record → Record → Bool) : List Record → List Record
  | [] => []
  | x :: xs => insertSorted le x (sortRows le xs)

/-- Embeds the ordering step of `get_multi`: applied only when `order_by` is
truthy (a non-empty string) and names a field of the model. -/
def orderRows (m : ModelClass) (order_by : Option String) (order_desc : Bool)
    (rows : List Record) : List Record :=
  match order_by with
  | some col =>
    if col != "" && m.hasField col then sortRows (keyLe col order_desc) rows
    else rows
  | none => rows

/-- Embeds `CRUDBase.get_multi` (`app/crud/base.py`): filters, then optional
single-column ordering, then `offset(skip).limit(limit)`. -/
def get_multi (m : ModelClass) (rows : List Record) (skip limit : Nat)
    (order_by : Option String) (order_desc : Bool)
    (filters : List (String × FilterValue)) : List Record :=
  (((orderRows m order_by order_desc (applyFilters m filters rows)).drop
      skip).take limit)

/-- Embeds `CRUDBase.get`: `query.filter(self.model.id == id).first()`. -/
def get (rows : List Record) (i : Int) : Option Record :=
  rows.find? (fun r => r.id == i)

/-- Embeds `CRUDBase.exists`: `... .first() is not None`. -/
def existsRecord (rows : List Record) (i : Int) : Bool :=
  (rows.find? (fun r => r.id == i)).isSome

end CRUD

namespace CRUD

/-- Unfolding of the filter loop over one dictionary entry. -/
theorem applyFilters_cons (m : ModelClass) (p : String × FilterValue)
    (fs : List (String × FilterValue)) (rows : List Record) :
    applyFilters m (p :: fs) rows
      = applyFilters m fs
          (if m.hasField p.1 then rows.filter (fun r => filterCond r p.1 p.2)
           else rows) := rfl

/-- Filtering only narrows the row set. -/
theorem mem_of_mem_applyFilters (m : ModelClass) :
    ∀ (fs : List (String × FilterValue)) (rows : List Record) (r : Record),
      r ∈ applyFilters m fs rows → r ∈ rows := by
  intro fs
  induction fs with
  | nil => intro rows r h; exact h
  | cons p fs ih =>
    intro rows r h
    rw [applyFilters_cons] at h
    have h2 := ih _ r h
    by_cases hf : m.hasField p.1
    · rw [if_pos hf] at h2
      exact List.mem_of_mem_filter h2
    · rwa [if_neg hf] at h2

/-- Every row surviving the filter loop satisfies the condition of every
entry whose field exists on the model. -/
theorem applyFilters_sound (m : ModelClass) :
    ∀ (fs : List (String × FilterValue)) (rows : List Record) (r : Record),
      r ∈ applyFilters m fs rows →
      ∀ f v, (f, v) ∈ fs → m.hasField f = true → filterCond r f v = true := by
  intro fs
  induction fs with
  | nil =>
    intro rows r _ f v hmem
    exact absurd hmem (List.not_mem_nil _)
  | cons p fs ih =>
    intro rows r h f v hmem hf
    rw [applyFilters_cons] at h
    rcases List.mem_cons.mp hmem with heq | htail
    · have hp1 : p.1 = f := by rw [← heq]
      have hp2 : p.2 = v := by rw [← heq]
      have hr := mem_of_mem_applyFilters m fs _ r h
      rw [hp1, hp2, hf] at hr
      simp only [if_true] at hr
      exact (List.mem_filter.mp hr).2
    · exact ih _ r h f v htail hf

/-- Membership is preserved by sorted insertion. -/
theorem mem_insertSorted (le : Record → Record → Bool) (x : Record) :
    ∀ (l : List Record) (a : Record),
      a ∈ insertSorted le x l ↔ a = x ∨ a ∈ l := by
  intro l
  induction l with
  | nil => intro a; simp [insertSorted]
  | cons y ys ih =>
    intro a
    rw [insertSorted]
    by_cases h : le x y
    · rw [if_pos h]
      simp [List.mem_cons]
    · rw [if_neg h]
      simp [List.mem_cons, ih a]
      tauto

/-- Sorting permutes the rows: membership is unchanged. -/
theorem mem_sortRows (le : Record → Record → Bool) :
    ∀ (l : List Record) (a : Record), a ∈ sortRows le l ↔ a ∈ l := by
  intro l
  induction l with
  | nil => intro a; simp [sortRows]
  | cons y ys ih =>
    intro a
    rw [sortRows, mem_insertSorted]
    simp [List.mem_cons, ih a]

/-- The optional `ORDER BY` step of `get_multi`. -/
theorem mem_of_mem_orderRows (m : ModelClass) (order_by : Option String)
    (order_desc : Bool) (rows : List Record) (r : Record)
    (h : r ∈ orderRows m order_by order_desc rows) : r ∈ rows := by
  cases order_by with
  | none => exact h
  | some col =>
    rw [orderRows] at h
    by_cases hc : (col != "" && m.hasField col) = true
    · rw [if_pos hc] at h
      exact (mem_sortRows _ _ _).mp h
    · rwa [if_neg hc] at h

end CRUD

open CRUD

/-- C3: every record returned by `get_multi` satisfies, for each entry of the
`filters` dictionary whose field exists on the model, the condition that
entry contributes — column equality for a single value, `IN` membership for
a list value. -/
theorem get_multi_filters_sound (m : ModelClass) (rows : List Record)
    (skip limit : Nat) (order_by : Option String) (order_desc : Bool)
    (filters : List (String × FilterValue)) (r : Record)
    (hr : r ∈ get_multi m rows skip limit order_by order_desc filters)
    (f : String) (v : FilterValue) (hfv : (f, v) ∈ filters)
    (hf : m.hasField f = true) :
    filterCond r f v = true := by
  have h1 : r ∈ orderRows m order_by order_desc (applyFilters m filters rows) :=
    List.drop_subset _ _ (List.take_subset _ _ hr)
  have h2 : r ∈ applyFilters m filters rows :=
    mem_of_mem_orderRows m order_by order_desc _ r h1
  exact applyFilters_sound m filters rows r h2 f v hfv hf

/-- C3 witness: on a one-row store with a `color` column, a single-value
filter on `color` returns the row, and the row satisfies the equality
condition. -/
theorem get_multi_filters_sound_witness :
    (⟨1, [("color", 2)]⟩ : Record)
        ∈ get_multi ⟨["color"]⟩ [⟨1, [("color", 2)]⟩] 0 100 none false
            [("color", FilterValue.single 2)]
    ∧ ModelClass.hasField ⟨["color"]⟩ "color" = true
    ∧ filterCond ⟨1, [("color", 2)]⟩ "color" (FilterValue.single 2) = true :=
  ⟨by decide, by decide,
   get_multi_filters_sound ⟨["color"]⟩ [⟨1, [("color", 2)]⟩] 0 100 none false
     [("color", FilterValue.single 2)] ⟨1, [("color", 2)]⟩ (by decide)
     "color" (FilterValue.single 2) (by decide) (by decide)⟩

/-- C9: `exists` and `get` agree on membership — `exists(db, id)` is true
exactly when `get(db, id)` returns a record.  Both run the same
`filter(self.model.id == id).first()` query. -/
theorem exists_agrees_with_get (rows : List Record) (i : Int) :
    existsRecord rows i = (CRUD.get rows i).isSome
    ∧ (existsRecord rows i = true ↔ CRUD.get rows i ≠ none) := by
  refine ⟨rfl, ?_⟩
  show (CRUD.get rows i).isSome = true ↔ CRUD.get rows i ≠ none
  exact Option.isSome_iff_ne_none

namespace CRUD

/-- The outcome of a bulk operation run against the session: the returned
value or the exception raised by the failed transaction, the committed store
after the run, and how many times `db.commit()` was called.  The underlying
transaction is atomic: a failed commit leaves the committed store unchanged. -/
structure BulkResult (α : Type) where
  result : Except Unit α
  store : List Record
  commitCalls : Nat
deriving Repr

/-- Whether a bulk operation raised. -/
def isErr {α : Type} : Except Unit α → Bool
  | Except.error _ => true
  | Except.ok _ => false

/-- Embeds `CRUDBase.bulk_create`: builds a row per input schema, `add_all`,
then a single `db.commit()`.  `failing` marks rows the database driver
rejects at flush/commit time; any such row makes the one commit raise and
the transaction roll back, leaving the store unchanged. -/
def bulk_create (store : List Record) (objs : List Record)
    (failing : Record → Bool) : BulkResult (List Record) :=
  if objs.any failing then ⟨Except.error (), store, 1⟩
  else ⟨Except.ok objs, store ++ objs, 1⟩

/-- Embeds `'id' in update_data` followed by `update_data.pop('id')` on one
update dictionary. -/
def lookupId (d : List (String × Int)) : Option Int :=
  (d.find? (fun p => p.1 == "id")).map (·.2)

/-- The update dictionary after `pop('id')`. -/
def removeId (d : List (String × Int)) : List (String × Int) :=
  d.filter (fun p => p.1 != "id")

/-- Embeds the inner field loop of `bulk_update`:
`setattr(db_obj, field, value)` for each field the object has. -/
def applyUpdateFields (obj : Record) (fields : List (String × Int)) : Record :=
  fields.foldl (fun o p => if o.hasAttr p.1 then setAttr o p.1 p.2 else o) obj

/-- Replaces the session's in-memory row with the mutated one (the ORM
identity map: a later `get` in the same loop sees earlier mutations). -/
def replaceById (rows : List Record) (i : Int) (obj : Record) : List Record :=
  rows.map (fun r => if r.id == i then obj else r)

/-- Embeds the iteration of `bulk_update`: dictionaries without an `id` key
are skipped, ids not found by `get` are skipped, and each found row is
mutated and appended to `updated_objs`.  Returns the session's working rows
and `updated_objs`. -/
def bulk_update_loop (work : List Record) (acc : List Record) :
    List (List (String × Int)) → List Record × List Record
  | [] => (work, acc)
  | d :: ds =>
    match lookupId d with
    | none => bulk_update_loop work acc ds
    | some i =>
      match get work i with
      | none => bulk_update_loop work acc ds
      | some obj =>
        bulk_update_loop (replaceById work i (applyUpdateFields obj (removeId d)))
          (acc ++ [applyUpdateFields obj (removeId d)]) ds

/-- Embeds `CRUDBase.bulk_update`: the iteration above, then
`if updated_objs: db.commit()` — so zero commits when no row was matched,
one otherwise; a failing row makes that one commit raise and roll back. -/
def bulk_update (store : List Record) (updates : List (List (String × Int)))
    (failing : Record → Bool) : BulkResult (List Record) :=
  match bulk_update_loop store [] updates with
  | (work, updated) =>
    if updated.isEmpty then ⟨Except.ok [], store, 0⟩
    else if updated.any failing then ⟨Except.error (), store, 1⟩
    else ⟨Except.ok updated, work, 1⟩

/-- Embeds `CRUDBase.bulk_delete`: one bulk `DELETE ... WHERE id IN ids`
returning the matched-row count, then a single `db.commit()`. -/
def bulk_delete (store : List Record) (ids : List Int)
    (failing : Record → Bool) : BulkResult Nat :=
  if (store.filter (fun r => ids.contains r.id)).any failing then
    ⟨Except.error (), store, 1⟩
  else
    ⟨Except.ok (store.filter (fun r => ids.contains r.id)).length,
     store.filter (fun r => !ids.contains r.id), 1⟩

end CRUD

/-- C4 counterexample: `bulk_update` on a non-empty store with an empty
updates list performs zero commits, not exactly one — the code only commits
`if updated_objs:`. -/
theorem bulk_update_zero_commits_cex :
    (bulk_update [⟨1, []⟩] [] (fun _ => false)).commitCalls = 0
    ∧ ¬ (bulk_update [⟨1, []⟩] [] (fun _ => false)).commitCalls = 1 :=
  ⟨rfl, by decide⟩

/-- C4 (amended): each bulk operation is plain iteration plus at most one
commit — `bulk_create` and `bulk_delete` call `db.commit()` exactly once,
`bulk_update` exactly once when at least one row was matched and updated and
zero times otherwise — and there is no partial-failure isolation: when the
unit of work fails, the committed store is unchanged, no subset of the rows
having been committed; in particular any failing row in `bulk_create` fails
the whole call. -/
theorem bulk_ops_single_commit_atomic (store objs : List Record)
    (ids : List Int) (updates : List (List (String × Int)))
    (failing : Record → Bool) :
    (bulk_create store objs failing).commitCalls = 1
    ∧ (bulk_delete store ids failing).commitCalls = 1
    ∧ (bulk_update store updates failing).commitCalls ≤ 1
    ∧ ((bulk_update store updates failing).commitCalls = 0
        ↔ (bulk_update_loop store [] updates).2 = [])
    ∧ (isErr (bulk_create store objs failing).result = true
        → (bulk_create store objs failing).store = store)
    ∧ (isErr (bulk_delete store ids failing).result = true
        → (bulk_delete store ids failing).store = store)
    ∧ (isErr (bulk_update store updates failing).result = true
        → (bulk_update store updates failing).store = store)
    ∧ (objs.any failing = true
        → isErr (bulk_create store objs failing).result = true) := by
  refine ⟨?_, ?_, ?_, ?_, ?_, ?_, ?_, ?_⟩
  · simp only [bulk_create]
    split <;> rfl
  · simp only [bulk_delete]
    split <;> rfl
  · rcases hl : bulk_update_loop store [] updates with ⟨work, updated⟩
    by_cases he : updated.isEmpty <;> by_cases hf : updated.any failing <;>
      simp [bulk_update, hl, he, hf]
  · rcases hl : bulk_update_loop store [] updates with ⟨work, updated⟩
    by_cases he : updated.isEmpty <;> by_cases hf : updated.any failing <;>
      simp [bulk_update, hl, he, hf, List.isEmpty_iff] <;>
        simp [List.isEmpty_iff] at he <;> exact he
  · simp only [bulk_create]
    split
    · intro _; rfl
    · intro h; simp [isErr] at h
  · simp only [bulk_delete]
    split
    · intro _; rfl
    · intro h; simp [isErr] at h
  · rcases hl : bulk_update_loop store [] updates with ⟨work, updated⟩
    by_cases he : updated.isEmpty <;> by_cases hf : updated.any failing <;>
      simp [bulk_update, hl, he, hf, isErr]
  · intro h
    simp [bulk_create, h, isErr]

/-- C4 witness: on concrete stores where every row fails, each bulk
operation raises and leaves the committed store exactly as it was. -/
theorem bulk_ops_single_commit_atomic_witness :
    (bulk_create [] [⟨1, []⟩] (fun _ => true)).store = []
    ∧ (bulk_delete [⟨1, []⟩] [1] (fun _ => true)).store = [⟨1, []⟩]
    ∧ (bulk_update [⟨1, [("x", 0)]⟩] [[("id", 1), ("x", 5)]]
        (fun _ => true)).store = [⟨1, [("x", 0)]⟩]
    ∧ isErr (bulk_create [] [⟨1, []⟩] (fun _ => true)).result = true := by
  refine ⟨?_, ?_, ?_, ?_⟩
  · exact (bulk_ops_single_commit_atomic [] [⟨1, []⟩] [] []
      (fun _ => true)).2.2.2.2.1 (by decide)
  · exact (bulk_ops_single_commit_atomic [⟨1, []⟩] [] [1] []
      (fun _ => true)).2.2.2.2.2.1 (by decide)
  · exact (bulk_ops_single_commit_atomic [⟨1, [("x", 0)]⟩] [] []
      [[("id", 1), ("x", 5)]] (fun _ => true)).2.2.2.2.2.2.1 (by decide)
  · exact (bulk_ops_single_commit_atomic [] [⟨1, []⟩] [] []
      (fun _ => true)).2.2.2.2.2.2.2 (by decide)

/-- Partitioning a store by id membership preserves its size. -/
theorem length_filter_partition (ids : List Int) :
    ∀ store : List Record,
      (store.filter (fun r => ids.contains r.id)).length
        + (store.filter (fun r => !ids.contains r.id)).length
        = store.length := by
  intro store
  induction store with
  | nil => rfl
  | cons x xs ih =>
    by_cases h : x.id ∈ ids <;>
      simp [List.filter_cons, h] at ih ⊢ <;> omega

/-- C5: `bulk_delete` returns exactly the number of rows removed from the
store — the count of records whose id is in the given list; ids with no
matching record contribute nothing, and the count plus the size of the
remaining store equals the original size. -/
theorem bulk_delete_exact_count (store : List Record) (ids : List Int) :
    (bulk_delete store ids (fun _ => false)).result
        = Except.ok (store.filter (fun r => ids.contains r.id)).length
    ∧ (store.filter (fun r => ids.contains r.id)).length
        + (bulk_delete store ids (fun _ => false)).store.length
        = store.length := by
  constructor
  · simp [bulk_delete]
  · simp only [bulk_delete]
    rw [if_neg (by simp)]
    exact length_filter_partition ids store

namespace App

open Config

/-- An HTTP response: status code, headers, and a JSON-object body embedded
as an association list of string values. -/
structure Response where
  status : Nat
  headers : List (String × String)
  body : List (String × String)
deriving Repr, DecidableEq

/-- A Starlette `HTTPException` with its status code and detail. -/
inductive HTTPError
  | httpExc (status : Nat) (detail : String)
deriving Repr, DecidableEq

/-- Embeds `read_root` of `main.py`: the JSON object returned by the root
endpoint, in the order the source writes its keys. -/
def read_root (s : Settings) : List (String × String) :=
  [("message", "Welcome to " ++ s.PROJECT_NAME),
   ("version", s.VERSION),
   ("docs_url", "/docs"),
   ("redoc_url", "/redoc"),
   ("api_v1", s.API_V1_STR),
   ("status", "operational")]

/-- The application's route table: `main.py` registers only the root
endpoint, so any other path raises the framework's 404 `HTTPException`. -/
def route (s : Settings) (path : String) : Except HTTPError Response :=
  if path = "/" then Except.ok ⟨200, [], read_root s⟩
  else Except.error (HTTPError.httpExc 404 "Not Found")

/-- Embeds `http_exception_handler` of `main.py`: a caught `HTTPException`
is re-serialized as a JSON body with its original status code. -/
def http_exception_handler : HTTPError → Response
  | HTTPError.httpExc st detail => ⟨st, [], [("detail", detail)]⟩

/-- Embeds `call_next` as seen by the timing middleware: the inner
application, whose exception layer turns every `HTTPException` into the
handler's error response. -/
def call_next (s : Settings) (path : String) : Response :=
  match route s path with
  | Except.ok r => r
  | Except.error e => http_exception_handler e

/-- Setting a response header, `response.headers[k] = v`: replaces any
existing value for the key. -/
def setHeader (resp : Response) (k v : String) : Response :=
  { resp with headers := resp.headers.filter (fun p => p.1 != k) ++ [(k, v)] }

/-- Reading a response header. -/
def headerValue (resp : Response) (k : String) : Option String :=
  (resp.headers.find? (fun p => p.1 == k)).map (·.2)

/-- Reading a key of a JSON-object body. -/
def jsonGet (obj : List (String × String)) (k : String) : Option String :=
  (obj.find? (fun p => p.1 == k)).map (·.2)

/-- Embeds the `add_process_time_header` middleware of `main.py`: the
response from `call_next` gets an `X-Process-Time` header holding the
elapsed wall-clock time, `str(time.time() - start_time)`. -/
def add_process_time_header (startTime endTime : Nat) (resp : Response) :
    Response :=
  setHeader resp "X-Process-Time" (toString (endTime - startTime))

/-- One request through the application: the middleware wrapping the inner
app.  `startTime` and `endTime` are the clock readings around `call_next`. -/
def handle_request (s : Settings) (path : String) (startTime endTime : Nat) :
    Response :=
  add_process_time_header startTime endTime (call_next s path)

/-- A freshly set header is read back. -/
theorem headerValue_setHeader (resp : Response) (k v : String) :
    headerValue (setHeader resp k v) k = some v := by
  have hnone : (resp.headers.filter (fun p => p.1 != k)).find?
      (fun p => p.1 == k) = none := by
    rw [List.find?_eq_none]
    intro p hp
    have h2 := (List.mem_filter.mp hp).2
    simp only [bne_iff_ne, ne_eq, decide_eq_true_eq] at h2 ⊢
    simpa using h2
  simp [headerValue, setHeader, List.find?_append, hnone]

end App

open App

/-- C6: every request handled by the application carries an
`X-Process-Time` header whose value is the measured processing time
(`str` of end minus start clock reading) — including requests resolved as
error responses, such as the 404 produced for an unrouted path. -/
theorem process_time_header_every_response (s : Settings) (path : String)
    (startTime endTime : Nat) :
    headerValue (handle_request s path startTime endTime) "X-Process-Time"
        = some (toString (endTime - startTime))
    ∧ (handle_request s "/missing" startTime endTime).status = 404
    ∧ headerValue (handle_request s "/missing" startTime endTime)
        "X-Process-Time" = some (toString (endTime - startTime)) := by
  have hdr : ∀ p : String,
      headerValue (handle_request s p startTime endTime) "X-Process-Time"
        = some (toString (endTime - startTime)) := by
    intro p
    exact headerValue_setHeader (call_next s p) _ _
  refine ⟨hdr path, ?_, hdr "/missing"⟩
  have hroute : route s "/missing"
      = Except.error (HTTPError.httpExc 404 "Not Found") := by
    rw [route, if_neg (by decide)]
  simp [handle_request, add_process_time_header, setHeader, call_next,
    hroute, http_exception_handler]

/-- C8: the root endpoint returns a JSON object with exactly the keys
`message`, `version`, `docs_url`, `redoc_url`, `api_v1` and `status`;
`status` is the fixed string "operational", and `message`, `version` and
`api_v1` are derived from the configured settings. -/
theorem read_root_fixed_shape (s : Settings) :
    route s "/" = Except.ok ⟨200, [], read_root s⟩
    ∧ (read_root s).map Prod.fst
        = ["message", "version", "docs_url", "redoc_url", "api_v1", "status"]
    ∧ jsonGet (read_root s) "status" = some "operational"
    ∧ jsonGet (read_root s) "message" = some ("Welcome to " ++ s.PROJECT_NAME)
    ∧ jsonGet (read_root s) "version" = some s.VERSION
    ∧ jsonGet (read_root s) "docs_url" = some "/docs"
    ∧ jsonGet (read_root s) "redoc_url" = some "/redoc"
    ∧ jsonGet (read_root s) "api_v1" = some s.API_V1_STR := by
  refine ⟨rfl, rfl, ?_, rfl, ?_, ?_, ?_, ?_⟩ <;>
    simp [jsonGet, read_root, List.find?]

namespace API

/-- Embeds `get_pagination_params` of `app/api/deps.py` together with the
`Query` validation it declares: `skip` defaults to 0 with `ge=0`, `limit`
defaults to 20 with `ge=1` and `le=100`.  FastAPI rejects an out-of-bounds
query parameter with a validation error before the dependency body runs;
an accepted request reaches the body, which returns the
`{"skip": skip, "limit": limit}` dictionary, embedded as a pair. -/
def get_pagination_params (skip limit : Option Int) :
    Except String (Int × Int) :=
  if skip.getD 0 < 0 then
    Except.error "skip: input should be greater than or equal to 0"
  else if limit.getD 20 < 1 then
    Except.error "limit: input should be greater than or equal to 1"
  else if limit.getD 20 > 100 then
    Except.error "limit: input should be less than or equal to 100"
  else
    Except.ok (skip.getD 0, limit.getD 20)

end API

open API

/-- C10: the pagination dependency accepts exactly the parameters with
`skip >= 0` and `1 <= limit <= 100`, with defaults `skip = 0` and
`limit = 20`; any request outside these bounds is rejected at the interface
with a validation error instead of reaching the CRUD layer. -/
theorem pagination_params_bounds :
    (∀ (skip limit : Option Int) (s l : Int),
        get_pagination_params skip limit = Except.ok (s, l) →
        0 ≤ s ∧ 1 ≤ l ∧ l ≤ 100)
    ∧ get_pagination_params none none = Except.ok (0, 20)
    ∧ (∀ skip limit : Option Int,
        (skip.getD 0 < 0 ∨ limit.getD 20 < 1 ∨ 100 < limit.getD 20) →
        ∃ msg, get_pagination_params skip limit = Except.error msg) := by
  refine ⟨?_, rfl, ?_⟩
  · intro skip limit s l h
    by_cases h1 : skip.getD 0 < 0
    · simp [get_pagination_params, h1] at h
    · by_cases h2 : limit.getD 20 < 1
      · simp [get_pagination_params, h1, h2] at h
      · by_cases h3 : limit.getD 20 > 100
        · simp [get_pagination_params, h1, h2, h3] at h
        · simp [get_pagination_params, h1, h2, h3] at h
          obtain ⟨rfl, rfl⟩ := h
          omega
  · intro skip limit hbad
    by_cases h1 : skip.getD 0 < 0
    · exact ⟨"skip: input should be greater than or equal to 0",
        by simp [get_pagination_params, h1]⟩
    · by_cases h2 : limit.getD 20 < 1
      · exact ⟨"limit: input should be greater than or equal to 1",
          by simp [get_pagination_params, h1, h2]⟩
      · by_cases h3 : limit.getD 20 > 100
        · exact ⟨"limit: input should be less than or equal to 100",
            by simp [get_pagination_params, h1, h2, h3]⟩
        · rcases hbad with hb | hb | hb <;> omega

/-- C10 witness: the request `skip=5, limit=50` is accepted and satisfies
the bounds, and the no-parameter request yields the defaults. -/
theorem pagination_params_bounds_witness :
    get_pagination_params (some 5) (some 50) = Except.ok (5, 50)
    ∧ (0 ≤ (5 : Int) ∧ 1 ≤ (50 : Int) ∧ (50 : Int) ≤ 100) :=
  ⟨rfl, pagination_params_bounds.1 (some 5) (some 50) 5 50 rfl⟩
